import Mathlib

/-!
# Verification of the PDF data-extraction tool

Shallow embedding of the core of the repository
(`src/pdf_extractor.py`, `src/data_processor.py`) in Lean 4, together with
theorems settling the frozen claims about its specification.

Modelling conventions:
* Python strings are `String`/`List Char`; the regex heuristics of the
  extractors are embedded as explicit scanners with Python `re` semantics
  (leftmost match, alternation tried left to right, greedy quantifiers —
  all the character classes involved are pairwise disjoint, so greedy
  matching needs no backtracking, except for `\d{1,2}` before a separator,
  which is resolved explicitly).  Character classes are ASCII, as in the
  inputs this tool consumes.
* Currency/metric decimals (at most two fractional digits) are modelled
  exactly as rationals `ℚ`.
* pandas `DataFrame`s are modelled column-wise; `pd.to_datetime(...,
  format=f, errors='ignore')` converts a string column iff every non-null
  entry parses under `f`, and passes an already-converted (datetime) column
  through unchanged.
* Fallible operations return `Except`; total Lean functions model the
  "never raises" parts of the code.
-/

namespace PdfTool

/-! ## Character classes (ASCII, as used by the `re` patterns) -/

/-- `\d` (ASCII): code points 48–57. -/
def isDigitC (c : Char) : Bool := decide (48 ≤ c.toNat ∧ c.toNat ≤ 57)

/-- `\s` (ASCII): space, tab, newline, carriage return, vertical tab, form feed. -/
def isPySpace (c : Char) : Bool :=
  decide (c ∈ ([' ', '\t', '\n', '\r', '\x0b', '\x0c'] : List Char))

/-- `[A-Za-z]` (ASCII letters). -/
def isAsciiAlpha (c : Char) : Bool :=
  decide ((65 ≤ c.toNat ∧ c.toNat ≤ 90) ∨ (97 ≤ c.toNat ∧ c.toNat ≤ 122))

/-- `[A-Z]` (ASCII uppercase letters). -/
def isAsciiUpper (c : Char) : Bool := decide (65 ≤ c.toNat ∧ c.toNat ≤ 90)

/-- `[A-Za-z\s]`, the label class of the report key-metric pattern. -/
def isLabelChar (c : Char) : Bool := isAsciiAlpha c || isPySpace c

/-- `[A-Z0-9\-]` under `re.IGNORECASE`: letters, digits and hyphen. -/
def isInvTokenChar (c : Char) : Bool := isAsciiAlpha c || isDigitC c || c = '-'

/-- Python `str.lower` (ASCII case folding, as performed by `Char.toLower`). -/
def strLower (s : String) : String := String.mk (s.data.map Char.toLower)

/-- Python `str.endswith`. -/
def strEndsWith (s suffix : String) : Bool := suffix.data.isSuffixOf s.data

/-! ## `PDFExtractor._validate_file` (src/pdf_extractor.py lines 11–21)

`__init__` stores the path and calls `_validate_file`, which raises
`FileNotFoundError` when `os.path.exists` is false and `ValueError` when
`self.pdf_path.lower().endswith('.pdf')` is false.  The filesystem is
abstracted as the predicate `fsExists`; file contents never enter the
check.  `InvoiceExtractor` and `ReportExtractor` inherit `__init__`
unchanged. -/

/-- The two exceptions `_validate_file` can raise. -/
inductive InitError where
  | fileNotFound
  | valueError
deriving DecidableEq

/-- `PDFExtractor._validate_file`, given the filesystem's existence predicate. -/
def validateFile (fsExists : String → Bool) (path : String) : Except InitError Unit :=
  if !(fsExists path) then .error .fileNotFound
  else if !(strEndsWith (strLower path) ".pdf") then .error .valueError
  else .ok ()

/-- `PDFExtractor.__init__`: store the path, validate, return the object (its path). -/
def initPDFExtractor (fsExists : String → Bool) (path : String) : Except InitError String :=
  (validateFile fsExists path).map (fun _ => path)

/-- `InvoiceExtractor` inherits `__init__` from `PDFExtractor`. -/
def initInvoiceExtractor (fsExists : String → Bool) (path : String) : Except InitError String :=
  initPDFExtractor fsExists path

/-- `ReportExtractor` inherits `__init__` from `PDFExtractor`. -/
def initReportExtractor (fsExists : String → Bool) (path : String) : Except InitError String :=
  initPDFExtractor fsExists path

/-! ## Regex scanners of the field extractors (src/pdf_extractor.py)

Each `re.search`/`re.finditer` pattern of the extractors is embedded as an
explicit scanner: `...At` tries the pattern anchored at the current
position, `search...` scans positions left to right and returns the first
(leftmost) match, exactly as `re.search` does. -/

/-- Case-insensitive literal match; on success returns the remaining input. -/
def matchCI : List Char → List Char → Option (List Char)
  | [], s => some s
  | _ :: _, [] => none
  | p :: ps, c :: cs => if c.toLower = p.toLower then matchCI ps cs else none

/-- `(?:,\d{3})*` (greedy): the matched characters. -/
def commaGroups : List Char → List Char
  | ',' :: a :: b :: c :: r =>
    if isDigitC a && isDigitC b && isDigitC c then ',' :: a :: b :: c :: commaGroups r
    else []
  | _ => []

/-- `(?:\.\d{2})?` (greedy): the matched characters. -/
def fracPart : List Char → List Char
  | '.' :: a :: b :: _ => if isDigitC a && isDigitC b then ['.', a, b] else []
  | _ => []

/-- `\d{1,3}(?:,\d{3})*(?:\.\d{2})?`, the number pattern shared by the amount and
key-metric regexes: matched characters plus remaining input, or `none` when no
digit starts here. -/
def numToken (s : List Char) : Option (List Char × List Char) :=
  let ds := (s.takeWhile isDigitC).take 3
  if ds.isEmpty then none
  else
    let r1 := s.drop ds.length
    let gs := commaGroups r1
    let r2 := r1.drop gs.length
    let fs := fracPart r2
    let r3 := r2.drop fs.length
    some (ds ++ gs ++ fs, r3)

/-- Decimal value of a digit string. -/
def digitsToNat (cs : List Char) : ℕ := cs.foldl (fun n c => 10 * n + (c.toNat - 48)) 0

/-- Python `float(matched.replace(',', ''))` on a string matched by the number
pattern: integer digits `ip`, optional two-digit fraction `fp`, giving the exact
decimal `ip + fp/100`, written as `(100*ip + fp)/100` over `ℚ`. -/
def parseMoney (cs : List Char) : ℚ :=
  let noCommas := cs.filter (fun c => c ≠ ',')
  let ip := noCommas.takeWhile (fun c => c ≠ '.')
  let fp := (noCommas.dropWhile (fun c => c ≠ '.')).drop 1
  mkRat (100 * digitsToNat ip + digitsToNat fp) 100

/-- `:?` (greedy): drop one leading colon when present. -/
def stripColon : List Char → List Char
  | ':' :: t => t
  | s => s

/-- `#?` (greedy): drop one leading hash when present. -/
def stripHash : List Char → List Char
  | '#' :: t => t
  | s => s

/-- `\$?` (greedy): drop one leading dollar sign when present. -/
def stripDollar : List Char → List Char
  | '$' :: t => t
  | s => s

/-- First alternative of the amount regex, `Total:?\s*\$?(num)`, anchored here. -/
def amountAlt1 (s : List Char) : Option (List Char) :=
  match matchCI ['t', 'o', 't', 'a', 'l'] s with
  | none => none
  | some r1 => (numToken (stripDollar ((stripColon r1).dropWhile isPySpace))).map Prod.fst

/-- Second alternative of the amount regex, `\$(num)`, anchored here. -/
def amountAlt2 (s : List Char) : Option (List Char) :=
  match s with
  | '$' :: t => (numToken t).map Prod.fst
  | _ => none

/-- The amount regex anchored here: alternatives tried left to right. -/
def amountAt (s : List Char) : Option (List Char) :=
  match amountAlt1 s with
  | some g => some g
  | none => amountAlt2 s

/-- `re.search` for the amount regex (line 80): the leftmost position at which
either alternative matches wins; returns the matched number group. -/
def searchAmount : List Char → Option (List Char)
  | [] => none
  | c :: t =>
    match amountAt (c :: t) with
    | some g => some g
    | none => searchAmount t

/-- `Invoice\s*#?:?\s*([A-Z0-9\-]+)` (IGNORECASE) anchored here (line 70). -/
def invoiceNumAt (s : List Char) : Option (List Char) :=
  match matchCI ['i', 'n', 'v', 'o', 'i', 'c', 'e'] s with
  | none => none
  | some r1 =>
    let r5 := (stripColon (stripHash (r1.dropWhile isPySpace))).dropWhile isPySpace
    let tok := r5.takeWhile isInvTokenChar
    if tok.isEmpty then none else some tok

/-- `re.search` for the invoice-number regex. -/
def searchInvoiceNumber : List Char → Option (List Char)
  | [] => none
  | c :: t =>
    match invoiceNumAt (c :: t) with
    | some g => some g
    | none => searchInvoiceNumber t

/-- `[\/\-\.]`, the date separator class. -/
def isSepC (c : Char) : Bool := c = '/' || c = '-' || c = '.'

/-- `\d{1,2}[\/\-\.]\d{1,2}[\/\-\.]\d{2,4}` anchored here: a digit run longer
than two before a separator slot can never match (shortening the run still
leaves a digit where the separator must be), so the runs are deterministic. -/
def dateTokenAt (s : List Char) : Option (List Char) :=
  let d1 := s.takeWhile isDigitC
  if d1.length = 0 || 2 < d1.length then none else
  match s.drop d1.length with
  | c1 :: r1 =>
    if isSepC c1 then
      let d2 := r1.takeWhile isDigitC
      if d2.length = 0 || 2 < d2.length then none else
      match r1.drop d2.length with
      | c2 :: r2 =>
        if isSepC c2 then
          let d3 := (r2.takeWhile isDigitC).take 4
          if d3.length < 2 then none
          else some (d1 ++ c1 :: (d2 ++ c2 :: d3))
        else none
      | [] => none
    else none
  | [] => none

/-- `Date:?\s*(\d{1,2}[\/\-\.]\d{1,2}[\/\-\.]\d{2,4})` (IGNORECASE) anchored here
(lines 75 and 136). -/
def dateLabelAt (s : List Char) : Option (List Char) :=
  match matchCI ['d', 'a', 't', 'e'] s with
  | none => none
  | some r1 => dateTokenAt ((stripColon r1).dropWhile isPySpace)

/-- `re.search` for the date regex; returns the matched date group. -/
def searchDateTok : List Char → Option (List Char)
  | [] => none
  | c :: t =>
    match dateLabelAt (c :: t) with
    | some g => some g
    | none => searchDateTok t

/-- `(?:Summary|Abstract|Executive\s+Summary):` (IGNORECASE) anchored here;
returns the input just after the colon.  The three alternatives start with
distinct letters, so the alternation is deterministic. -/
def summaryLabelAt (s : List Char) : Option (List Char) :=
  match matchCI ['s', 'u', 'm', 'm', 'a', 'r', 'y'] s with
  | some (':' :: r) => some r
  | _ =>
    match matchCI ['a', 'b', 's', 't', 'r', 'a', 'c', 't'] s with
    | some (':' :: r) => some r
    | _ =>
      match matchCI ['e', 'x', 'e', 'c', 'u', 't', 'i', 'v', 'e'] s with
      | none => none
      | some r1 =>
        if (r1.takeWhile isPySpace).isEmpty then none else
        match matchCI ['s', 'u', 'm', 'm', 'a', 'r', 'y'] (r1.dropWhile isPySpace) with
        | some (':' :: r) => some r
        | _ => none

/-- The lookahead `(?=\n\n|\n[A-Z]|\Z)` of the summary regex, at this position. -/
def lookaheadBoundary (s : List Char) : Bool :=
  match s with
  | [] => true
  | '\n' :: '\n' :: _ => true
  | '\n' :: c :: _ => isAsciiUpper c
  | _ => false

/-- The lazy group `(.*?)` (DOTALL) of the summary regex: everything up to the
first position where the lookahead holds (the end of input always qualifies). -/
def takeSummary : List Char → List Char
  | [] => []
  | c :: t => if lookaheadBoundary (c :: t) then [] else c :: takeSummary t

/-- `re.search` for the summary regex (lines 151–152); returns the group. -/
def searchSummary : List Char → Option (List Char)
  | [] => none
  | c :: t =>
    match summaryLabelAt (c :: t) with
    | some r => some (takeSummary r)
    | none => searchSummary t

/-- Python `str.strip()` (ASCII whitespace). -/
def trimChars (cs : List Char) : List Char :=
  ((cs.dropWhile isPySpace).reverse.dropWhile isPySpace).reverse

/-- Python `str.strip()` on `String`. -/
def strTrim (s : String) : String := String.mk (trimChars s.data)

/-- `([A-Za-z\s]+):\s*\$?(num)`, the key-metric pattern (line 141), anchored
here: label, matched number and remaining input.  `':'` is not a label
character, so the greedy label run is deterministic. -/
def metricAt (s : List Char) : Option (List Char × List Char × List Char) :=
  if (s.takeWhile isLabelChar).isEmpty then none else
  match s.dropWhile isLabelChar with
  | ':' :: r2 =>
    (numToken (stripDollar (r2.dropWhile isPySpace))).map
      (fun p => (s.takeWhile isLabelChar, p.1, p.2))
  | _ => none

theorem length_dropWhile_le' (p : Char → Bool) (l : List Char) :
    (l.dropWhile p).length ≤ l.length := by
  induction l with
  | nil => simp
  | cons a t ih =>
    rw [List.dropWhile_cons]
    split
    · simp only [List.length_cons]
      omega
    · simp

theorem length_takeWhile_le' (p : Char → Bool) (l : List Char) :
    (l.takeWhile p).length ≤ l.length := by
  induction l with
  | nil => simp
  | cons a t ih =>
    rw [List.takeWhile_cons]
    split
    · simp only [List.length_cons]
      omega
    · simp

theorem length_stripDollar_le (l : List Char) : (stripDollar l).length ≤ l.length := by
  unfold stripDollar
  split <;> simp

theorem numToken_rest_lt {s : List Char} {p : List Char × List Char}
    (h : numToken s = some p) : p.2.length < s.length := by
  unfold numToken at h
  by_cases hds : ((s.takeWhile isDigitC).take 3).isEmpty
  · simp [hds] at h
  · simp only [hds, if_false, Bool.false_eq_true] at h
    injection h with h'
    subst h'
    simp only [List.length_drop]
    have h1 : 1 ≤ ((s.takeWhile isDigitC).take 3).length := by
      cases he : (s.takeWhile isDigitC).take 3 with
      | nil => rw [he] at hds; simp at hds
      | cons a t => simp [he]
    have h2 : ((s.takeWhile isDigitC).take 3).length ≤ s.length := by
      calc ((s.takeWhile isDigitC).take 3).length ≤ (s.takeWhile isDigitC).length := by
            simp [List.length_take_le]
        _ ≤ s.length := length_takeWhile_le' _ _
    omega

theorem metricAt_rest_lt {s lab num rest : List Char}
    (h : metricAt s = some (lab, num, rest)) : rest.length < s.length := by
  unfold metricAt at h
  split at h
  · exact absurd h (by simp)
  · split at h
    · rename_i r2 heq
      rw [Option.map_eq_some'] at h
      obtain ⟨q, hq, hqe⟩ := h
      have hrest : rest = q.2 := by
        cases hqe
        rfl
      subst hrest
      have h1 := numToken_rest_lt hq
      have h2 : (stripDollar (r2.dropWhile isPySpace)).length ≤ r2.length :=
        le_trans (length_stripDollar_le _) (length_dropWhile_le' _ _)
      have h3 : (s.dropWhile isLabelChar).length ≤ s.length := length_dropWhile_le' _ _
      rw [heq] at h3
      simp only [List.length_cons] at h3
      omega
    · exact absurd h (by simp)

/-- `re.finditer` for the key-metric pattern, fuelled so that the recursion is
structural: scan left to right, emit each non-overlapping match as
`(label.strip(), float(value))`, resume after it.  Every step strictly shrinks
the input (`metricAt_rest_lt`), so any fuel above the input length is enough. -/
def findMetricsAux : ℕ → List Char → List (String × ℚ)
  | 0, _ => []
  | fuel + 1, s =>
    match metricAt s with
    | some (lab, num, rest) =>
      (strTrim (String.mk lab), parseMoney num) :: findMetricsAux fuel rest
    | none =>
      match s with
      | [] => []
      | _ :: t => findMetricsAux fuel t

/-- `re.finditer` for the key-metric pattern over the whole text. -/
def findMetrics (s : List Char) : List (String × ℚ) := findMetricsAux (s.length + 1) s

theorem findMetricsAux_fuel :
    ∀ (f1 : ℕ) {s : List Char} (f2 : ℕ), s.length < f1 → s.length < f2 →
      findMetricsAux f1 s = findMetricsAux f2 s := by
  intro f1
  induction f1 with
  | zero => intro s f2 h1 _; omega
  | succ f ih =>
    intro s f2 h1 h2
    cases f2 with
    | zero => omega
    | succ g =>
      cases hm : metricAt s with
      | some p =>
        obtain ⟨lab, num, rest⟩ := p
        have hlt := metricAt_rest_lt hm
        simp only [findMetricsAux, hm]
        rw [ih g (by omega) (by omega)]
      | none =>
        cases s with
        | nil => rfl
        | cons c t =>
          simp only [findMetricsAux, hm]
          simp only [List.length_cons] at h1 h2
          rw [ih g (by omega) (by omega)]

theorem findMetricsAux_succ (f : ℕ) (s : List Char) :
    findMetricsAux (f + 1) s =
      match metricAt s with
      | some (lab, num, rest) =>
        (strTrim (String.mk lab), parseMoney num) :: findMetricsAux f rest
      | none =>
        match s with
        | [] => []
        | _ :: t => findMetricsAux f t := rfl

theorem findMetrics_eq_of_metricAt_some {s lab num rest : List Char}
    (h : metricAt s = some (lab, num, rest)) :
    findMetrics s = (strTrim (String.mk lab), parseMoney num) :: findMetrics rest := by
  have hlt := metricAt_rest_lt h
  unfold findMetrics
  conv_lhs => rw [findMetricsAux_succ, h]
  dsimp only
  rw [findMetricsAux_fuel s.length (rest.length + 1) (by omega) (by omega)]

theorem findMetrics_cons_of_metricAt_none {c : Char} {t : List Char}
    (h : metricAt (c :: t) = none) : findMetrics (c :: t) = findMetrics t := by
  unfold findMetrics
  conv_lhs => rw [findMetricsAux_succ, h]
  simp only [List.length_cons]

/-! ## Assembly of the two extractors
(src/pdf_extractor.py lines 50–106 and 112–156) -/

/-- Python `str.split(sep)` for a one-character separator: always non-empty,
`''.split(sep) == ['']`. -/
def splitOnChar (sep : Char) : List Char → List (List Char)
  | [] => [[]]
  | c :: t =>
    if c = sep then [] :: splitOnChar sep t
    else
      match splitOnChar sep t with
      | [] => [[c]]
      | l :: ls => (c :: l) :: ls

/-- Python `text.split('\n')`. -/
def splitLines (cs : List Char) : List (List Char) := splitOnChar '\n' cs

/-- `lines[0].strip()`: the first line of the text, trimmed (lines 88–91, 130–133). -/
def firstLineTrim (text : String) : String :=
  strTrim (String.mk ((splitLines text.data).headD []))

/-- A candidate table as segmented by the layout engine: header row + body rows. -/
structure TableT where
  headers : List String
  rows : List (List String)
deriving DecidableEq

/-- Case-insensitive substring test, Python `keyword in col.lower()` (line 98). -/
def containsSub (needle hay : List Char) : Bool :=
  hay.tails.any (fun t => needle.isPrefixOf t)

/-- The line-item keywords of `extract_invoice_data` (line 99). -/
def priceKeywords : List String := ["price", "amount", "total", "cost"]

/-- A table holds line items iff some column header contains a keyword (lines 98–100). -/
def hasPriceColumn (t : TableT) : Bool :=
  t.headers.any (fun h => priceKeywords.any (fun k => containsSub k.data (strLower h).data))

/-- One line item per body row, keyed by the table's headers (lines 102–104). -/
def tableLineItems (t : TableT) : List (List (String × String)) :=
  t.rows.map (fun r => t.headers.zip r)

/-- The record returned by `InvoiceExtractor.extract_invoice_data`. -/
structure InvoiceData where
  invoice_number : Option String
  date : Option String
  total_amount : Option ℚ
  vendor : Option String
  line_items : List (List (String × String))
deriving DecidableEq

/-- `InvoiceExtractor.extract_invoice_data` as a function of the page texts and
candidate tables produced by the layout engine.  Total: a missing or unparsable
field leaves the field `none`, never an exception. -/
def extractInvoiceData (pages : List String) (tables : List TableT) : InvoiceData :=
  match pages with
  | [] => ⟨none, none, none, none, []⟩
  | text :: _ =>
    { invoice_number := (searchInvoiceNumber text.data).map (fun g => strTrim (String.mk g))
      date := (searchDateTok text.data).map String.mk
      total_amount := (searchAmount text.data).map parseMoney
      vendor := some (firstLineTrim text)
      line_items := ((tables.filter hasPriceColumn).map tableLineItems).flatten }

/-- The record returned by `ReportExtractor.extract_report_data`. -/
structure ReportData where
  title : Option String
  date : Option String
  summary : Option String
  key_metrics : List (String × ℚ)
  tables : List TableT
deriving DecidableEq

/-- Python dict assignment `d[k] = v`: overwrite in place or append. -/
def dictInsert (m : List (String × ℚ)) (k : String) (v : ℚ) : List (String × ℚ) :=
  if m.any (fun p => p.1 = k) then m.map (fun p => if p.1 = k then (k, v) else p)
  else m ++ [(k, v)]

/-- `report_data["key_metrics"]`: the finditer matches folded into a dict
(lines 140–148; the `except ValueError` branch is unreachable because every
string matched by the number pattern parses as a float). -/
def keyMetricsOf (text : String) : List (String × ℚ) :=
  (findMetrics text.data).foldl (fun m p => dictInsert m p.1 p.2) []

/-- `ReportExtractor.extract_report_data` as a function of page texts and tables.
All candidate tables are retained verbatim, whether or not any pattern matched. -/
def extractReportData (pages : List String) (tables : List TableT) : ReportData :=
  match pages with
  | [] => ⟨none, none, none, [], tables⟩
  | text :: _ =>
    { title := some (firstLineTrim text)
      date := (searchDateTok text.data).map String.mk
      summary := (searchSummary text.data).map (fun g => strTrim (String.mk g))
      key_metrics := keyMetricsOf text
      tables := tables }

/-! ## `DataProcessor` (src/data_processor.py lines 8–111)

The processor's `processed_data` DataFrame is modelled column-wise
(`InvoiceFrame`); the date column (`DateCol`) is either still raw strings or
converted to datetimes, matching the two dtypes the column can have. -/

/-- `datetime.date` as produced by a successful `strptime`-style parse. -/
structure DateT where
  year : ℕ
  month : ℕ
  day : ℕ
deriving DecidableEq

/-- Gregorian leap year, as used by `datetime`'s calendar validation. -/
def isLeapYear (y : ℕ) : Bool := (y % 4 == 0 && y % 100 != 0) || y % 400 == 0

/-- Number of days of month `m` in year `y`. -/
def monthLen (y m : ℕ) : ℕ :=
  if m = 2 then (if isLeapYear y then 29 else 28)
  else if m = 4 ∨ m = 6 ∨ m = 9 ∨ m = 11 then 30
  else 31

/-- One candidate date format: the separator character, and whether the day
comes first (`%d<sep>%m<sep>%Y`) or the month (`%m<sep>%d<sep>%Y`). -/
structure DateFmt where
  sep : Char
  dayFirst : Bool
deriving DecidableEq

/-- The ordered candidate list of line 42 / line 85:
`['%m/%d/%Y', '%d/%m/%Y', '%m-%d-%Y', '%d-%m-%Y', '%m.%d.%Y', '%d.%m.%Y']`. -/
def dateFormats : List DateFmt :=
  [⟨'/', false⟩, ⟨'/', true⟩, ⟨'-', false⟩, ⟨'-', true⟩, ⟨'.', false⟩, ⟨'.', true⟩]

/-- Parse one date string against one format, strptime-style: the string must be
exactly three separator-joined digit fields (`%m`/`%d`: one or two digits, `%Y`:
up to four digits), forming a calendar-valid date.  (The nanosecond `Timestamp`
range restriction of the dataframe library is not modelled; no claim depends on
it.) -/
def parseDate (f : DateFmt) (s : String) : Option DateT :=
  match splitOnChar f.sep s.data with
  | [p1, p2, p3] =>
    if p1.isEmpty || 2 < p1.length || !p1.all isDigitC then none
    else if p2.isEmpty || 2 < p2.length || !p2.all isDigitC then none
    else if p3.isEmpty || 4 < p3.length || !p3.all isDigitC then none
    else
      let a := digitsToNat p1
      let b := digitsToNat p2
      let y := digitsToNat p3
      let m := if f.dayFirst then b else a
      let d := if f.dayFirst then a else b
      if 1 ≤ m && m ≤ 12 && 1 ≤ d && d ≤ monthLen y m && 1 ≤ y then some ⟨y, m, d⟩
      else none
  | _ => none

/-- A dataframe date column: either still raw strings (object dtype) or
converted to datetimes. -/
inductive DateCol where
  | raw (vals : List (Option String))
  | parsed (vals : List (Option DateT))
deriving DecidableEq

/-- Does format `f` parse every non-null entry of the column?  (Null entries
become `NaT` and never fail.) -/
def parsesAll (f : DateFmt) (vals : List (Option String)) : Bool :=
  vals.all fun v =>
    match v with
    | none => true
    | some s => (parseDate f s).isSome

/-- `pd.to_datetime(col, format=f, errors='ignore')`: an already-converted
column passes through; a raw column converts iff every non-null entry parses
under `f`, and otherwise is returned unchanged. -/
def toDatetime (f : DateFmt) (c : DateCol) : DateCol :=
  match c with
  | .parsed ds => .parsed ds
  | .raw vs =>
    if parsesAll f vs then .parsed (vs.map (fun v => v.bind (parseDate f)))
    else .raw vs

/-- The date-conversion loop of lines 40–46 / 83–89: skip entirely when the
column is all-null, otherwise try the six formats in order. -/
def processDateColumn (vals : List (Option String)) : DateCol :=
  if vals.all (fun v => v.isNone) then .raw vals
  else dateFormats.foldl (fun c f => toDatetime f c) (.raw vals)

/-- The processed invoice DataFrame, column-wise.  `indexed` records whether
`set_index('invoice_number')` ran (line 50); the identifier values stay in
`number`, serving as the index when `indexed` is true. -/
structure InvoiceFrame where
  number : List (Option String)
  dateCol : DateCol
  vendor : List (Option String)
  amount : List (Option ℚ)
  itemCount : List ℕ
  indexed : Bool
deriving DecidableEq

/-- `pd.DataFrame()`: the initial/empty frame. -/
def emptyFrame : InvoiceFrame := ⟨[], .raw [], [], [], [], false⟩

/-- `pd.DataFrame.empty` for this fixed-schema frame: no rows. -/
def frameEmpty (f : InvoiceFrame) : Bool := f.vendor.isEmpty

/-- Lines 26–52 for non-empty input: one row per record, date conversion, and
`set_index` iff the identifier column is not entirely null
(`not df['invoice_number'].isna().all()`). -/
def buildInvoiceFrame (dl : List InvoiceData) : InvoiceFrame :=
  { number := dl.map (fun r => r.invoice_number)
    dateCol := processDateColumn (dl.map (fun r => r.date))
    vendor := dl.map (fun r => r.vendor)
    amount := dl.map (fun r => r.total_amount)
    itemCount := dl.map (fun r => r.line_items.length)
    indexed := !(dl.map (fun r => r.invoice_number)).all (fun v => v.isNone) }

/-- `DataProcessor` state: the raw `data_list` and the `processed_data` frame. -/
structure DataProcessorState where
  data_list : List InvoiceData
  processed_data : InvoiceFrame
deriving DecidableEq

/-- `DataProcessor.__init__(data_list)`: `processed_data = pd.DataFrame()`. -/
def initProcessor (dl : List InvoiceData) : DataProcessorState := ⟨dl, emptyFrame⟩

/-- `DataProcessor.process_invoice_data`: returns the built frame and the new
state.  On an empty `data_list` it returns an empty frame *without touching*
`self.processed_data` (the early return of lines 22–23). -/
def processInvoiceDataS (s : DataProcessorState) : InvoiceFrame × DataProcessorState :=
  if s.data_list.isEmpty then (emptyFrame, s)
  else (buildInvoiceFrame s.data_list, ⟨s.data_list, buildInvoiceFrame s.data_list⟩)

/-- The frame produced by tabulating `dl` on a fresh processor. -/
def processInvoiceFrame (dl : List InvoiceData) : InvoiceFrame :=
  (processInvoiceDataS (initProcessor dl)).1

/-- The exception `save_to_csv`/`save_to_excel` raise on an empty frame. -/
inductive ExportError where
  | valueError
deriving DecidableEq

/-- `DataProcessor.save_to_csv` (lines 94–99): raise `ValueError` when
`self.processed_data.empty`, else write the frame. -/
def saveToCsv (s : DataProcessorState) : Except ExportError InvoiceFrame :=
  if frameEmpty s.processed_data then .error .valueError else .ok s.processed_data

/-- `DataProcessor.save_to_excel` (lines 101–106): same precondition check. -/
def saveToExcel (s : DataProcessorState) : Except ExportError InvoiceFrame :=
  if frameEmpty s.processed_data then .error .valueError else .ok s.processed_data

/-- `DataProcessor.export_as_json` (lines 108–111): dump the original
`data_list`; no precondition, never raises. -/
def exportAsJson (s : DataProcessorState) : Except ExportError (List InvoiceData) :=
  .ok s.data_list

/-! ## `DataAnalyzer` (src/data_processor.py lines 114–243)

`analyze_invoices` builds an insights dict; `get_anomalies` flags values by
z-score.  Python floats over these exact decimal inputs are modelled in `ℚ`,
and the real-valued standard deviation (a square root) in `ℝ`. -/

/-- A month-over-month percent change value: finite, or the infinity produced
by `pct_change` when the previous month's total is zero (not dropped by
`dropna`, unlike the `0/0` case). -/
inductive PctVal where
  | val (q : ℚ)
  | inf
deriving DecidableEq

/-- A value of the insights dict. -/
inductive Insight where
  | num (q : ℚ)
  | nan
  | counts (l : List (String × ℕ))
  | amounts (l : List (String × ℚ))
  | monthMap (l : List ((ℕ × ℕ) × ℚ))
  | pctMap (l : List ((ℕ × ℕ) × PctVal))
  | errMsg (s : String)
deriving DecidableEq

/-- pandas `Series.sum()` with default `skipna`: nulls are skipped, and an
all-null column sums to `0`. -/
def sumOpt (l : List (Option ℚ)) : ℚ := (l.filterMap id).sum

/-- pandas `Series.mean()`: `NaN` on a column with no non-null values. -/
def meanOpt (l : List (Option ℚ)) : Insight :=
  if (l.filterMap id).isEmpty then .nan
  else .num ((l.filterMap id).sum / (l.filterMap id).length)

/-- pandas `Series.max()`: `NaN` on a column with no non-null values. -/
def maxOpt (l : List (Option ℚ)) : Insight :=
  match l.filterMap id with
  | [] => .nan
  | x :: xs => .num (xs.foldl max x)

/-- pandas `Series.min()`. -/
def minOpt (l : List (Option ℚ)) : Insight :=
  match l.filterMap id with
  | [] => .nan
  | x :: xs => .num (xs.foldl min x)

/-- Distinct elements in first-seen order (the deterministic rendering of the
grouping keys; a pandas tie/ordering detail no claim depends on). -/
def firstDedup (l : List String) : List String :=
  l.foldl (fun acc a => if a ∈ acc then acc else acc ++ [a]) []

/-- Distinct months in first-seen order. -/
def firstDedupM (l : List (ℕ × ℕ)) : List (ℕ × ℕ) :=
  l.foldl (fun acc a => if a ∈ acc then acc else acc ++ [a]) []

/-- Chronological order on `(year, month)` keys, as `groupby` sorts `Period`s. -/
def monthLE (a b : ℕ × ℕ) : Prop := a.1 < b.1 ∨ (a.1 = b.1 ∧ a.2 ≤ b.2)

instance : DecidableRel monthLE := fun a b => by
  unfold monthLE
  infer_instance

instance : IsTotal (ℕ × ℕ) monthLE := by
  constructor
  intro a b
  unfold monthLE
  omega

instance : IsTrans (ℕ × ℕ) monthLE := by
  constructor
  intro a b c
  unfold monthLE
  omega

/-- `date.dt.to_period('M')`: the `(year, month)` bucket of a datetime. -/
def monthOf (d : DateT) : ℕ × ℕ := (d.year, d.month)

/-- Lines 146–150: rows whose date is non-null, as `(month, amount)` pairs
(only reached when the date column has datetime dtype, i.e. is `parsed`). -/
def monthKeyed (f : InvoiceFrame) : List ((ℕ × ℕ) × Option ℚ) :=
  match f.dateCol with
  | .raw _ => []
  | .parsed ds => (ds.zip f.amount).filterMap fun p => p.1.map (fun d => (monthOf d, p.2))

/-- The distinct month keys of the `groupby('month')`, in its sorted order. -/
def sortedMonths (f : InvoiceFrame) : List (ℕ × ℕ) :=
  List.insertionSort monthLE (firstDedupM ((monthKeyed f).map (fun p => p.1)))

/-- `monthly_totals = self.data.groupby('month')['total_amount'].sum()`. -/
def monthlyTotals (f : InvoiceFrame) : List ((ℕ × ℕ) × ℚ) :=
  (sortedMonths f).map fun mo =>
    (mo, sumOpt (((monthKeyed f).filter (fun p => p.1 = mo)).map (fun p => p.2)))

/-- One step of `monthly_totals.pct_change() * 100` followed by `dropna()`:
`none` is the dropped `NaN` (`0/0`); a zero previous month with a non-zero
current month yields infinity, which `dropna` keeps. -/
def pctChange (prev cur : ℚ) : Option PctVal :=
  if prev = 0 then (if cur = 0 then none else some .inf)
  else some (.val ((cur - prev) / prev * 100))

/-- The `monthly_change` entries: one per consecutive month pair that survives
`dropna`, keyed by the later month; the first month never appears as a key. -/
def pctEntries (l : List ((ℕ × ℕ) × ℚ)) : List ((ℕ × ℕ) × PctVal) :=
  (l.zip l.tail).filterMap fun p => (pctChange p.1.2 p.2.2).map (fun v => (p.2.1, v))

/-- Lines 129–134: basic statistics of the `total_amount` column. -/
def basicBlock (f : InvoiceFrame) : List (String × Insight) :=
  [("total_spend", .num (sumOpt f.amount)),
   ("average_invoice_amount", meanOpt f.amount),
   ("max_invoice_amount", maxOpt f.amount),
   ("min_invoice_amount", minOpt f.amount)]

/-- Lines 136–144: vendor frequency and spend (`value_counts`/`nlargest`
rendered deterministically: sorted by count/spend descending, first-seen order
on ties). -/
def vendorBlock (f : InvoiceFrame) : List (String × Insight) :=
  [("vendor_count", .num (firstDedup (f.vendor.filterMap id)).length),
   ("top_vendors", .counts
     ((List.insertionSort (fun a b : String × ℕ => b.2 ≤ a.2)
       ((firstDedup (f.vendor.filterMap id)).map
         (fun v => (v, ((f.vendor.filterMap id).filter (fun x => x = v)).length)))).take 3)),
   ("top_vendors_by_spend", .amounts
     ((List.insertionSort (fun a b : String × ℚ => b.2 ≤ a.2)
       ((firstDedup (f.vendor.filterMap id)).map
         (fun v => (v, sumOpt ((f.vendor.zip f.amount).filterMap
           (fun p => if p.1 = some v then some p.2 else none)))))).take 3))]

/-- Lines 146–156: the time-series block, entered only when the date column has
datetime dtype; `monthly_change` is added only when more than one month key
exists. -/
def timeBlock (f : InvoiceFrame) : List (String × Insight) :=
  match f.dateCol with
  | .raw _ => []
  | .parsed _ =>
    [("monthly_totals", .monthMap (monthlyTotals f))]
    ++ (if 1 < (monthlyTotals f).length then
          [("monthly_change", .pctMap (pctEntries (monthlyTotals f)))]
        else [])

/-- `DataAnalyzer.analyze_invoices` (lines 122–159): an error entry on an empty
frame, otherwise the basic, vendor and time-series insights in order. -/
def analyzeInvoices (f : InvoiceFrame) : List (String × Insight) :=
  if frameEmpty f then [("error", .errMsg "No data available for analysis")]
  else basicBlock f ++ vendorBlock f ++ timeBlock f

/-- Dict lookup on the insights list. -/
def lookupInsight (k : String) (l : List (String × Insight)) : Option Insight :=
  (l.find? (fun p => p.1 = k)).map (fun p => p.2)

/-- All (parsed) dates of the frame fall in the single calendar month `ym`
(vacuously true of a raw date column, for which the time-series block is
skipped anyway). -/
def monthsAllEq (f : InvoiceFrame) (ym : ℕ × ℕ) : Bool :=
  match f.dateCol with
  | .raw _ => true
  | .parsed ds => ds.all fun od =>
      match od with
      | none => true
      | some d => decide (monthOf d = ym)

/-- pandas `Series.mean()` over a complete numeric column (line 221). -/
def sMean (xs : List ℚ) : ℚ := xs.sum / xs.length

/-- pandas `Series.std()` (line 222) squared: the *sample* variance, `ddof=1`
(sum of squared deviations over `n - 1`).  Over `ℚ`, the `n ≤ 1` cases come out
`0` where pandas produces `NaN`; either way the column is skipped, `NaN`
because `NaN == 0` is false but every `NaN` z-score comparison is also false. -/
def sVar (xs : List ℚ) : ℚ :=
  ((xs.map (fun x => (x - sMean xs) ^ 2)).sum) / ((xs.length : ℚ) - 1)

/-- The standard deviation itself: a real square root. -/
noncomputable def sStd (xs : List ℚ) : ℝ := Real.sqrt ((sVar xs : ℚ) : ℝ)

/-- One entry of the anomaly list (lines 232–241). -/
structure Anomaly where
  index : ℕ
  column : String
  value : ℚ
  zScore : ℝ
  mean : ℚ
  std : ℝ

section
open Classical

/-- The loop body of `get_anomalies` for one numeric column (lines 219–241):
skip the column when its standard deviation is zero, otherwise flag every value
whose `|z| = |(x - mean)/std|` strictly exceeds the threshold, recording the
positional index.  (Real-valued, hence classical `if`s.) -/
noncomputable def columnAnomalies (threshold : ℝ) (name : String) (xs : List ℚ) :
    List Anomaly :=
  if sStd xs = 0 then []
  else
    ((List.range xs.length).zip xs).filterMap fun p =>
      if |((p.2 - sMean xs : ℚ) : ℝ) / sStd xs| > threshold then
        some ⟨p.1, name, p.2, ((p.2 - sMean xs : ℚ) : ℝ) / sStd xs, sMean xs, sStd xs⟩
      else none

/-- `DataAnalyzer.get_anomalies(threshold)` over the numeric columns of the
frame (given as named complete columns; null-handling is not exercised by any
claim). -/
noncomputable def getAnomalies (threshold : ℝ) (cols : List (String × List ℚ)) :
    List Anomaly :=
  (cols.map (fun c => columnAnomalies threshold c.1 c.2)).flatten

end

end PdfTool

namespace PdfTool

/-- C9: For every path, constructing an extractor raises `FileNotFoundError` exactly
when the path does not exist; otherwise it raises `ValueError` exactly when the path
does not end in `.pdf` case-insensitively; otherwise construction succeeds.  The
check depends only on the existence bit of the path and the path string itself
(never file content), and all three extractor classes share it. -/
theorem c9_validate_characterization (fsExists : String → Bool) (path : String) :
    (initPDFExtractor fsExists path = .error .fileNotFound ↔ fsExists path = false)
    ∧ (initPDFExtractor fsExists path = .error .valueError ↔
        (fsExists path = true ∧ strEndsWith (strLower path) ".pdf" = false))
    ∧ (initPDFExtractor fsExists path = .ok path ↔
        (fsExists path = true ∧ strEndsWith (strLower path) ".pdf" = true))
    ∧ initInvoiceExtractor fsExists path = initPDFExtractor fsExists path
    ∧ initReportExtractor fsExists path = initPDFExtractor fsExists path
    ∧ (∀ fs' : String → Bool, fs' path = fsExists path →
        initPDFExtractor fs' path = initPDFExtractor fsExists path) := by
  unfold initPDFExtractor initInvoiceExtractor initReportExtractor validateFile
  refine ⟨?_, ?_, ?_, rfl, rfl, ?_⟩
  · cases h : fsExists path <;> cases h2 : strEndsWith (strLower path) ".pdf" <;>
      simp [h, h2, Except.map]
  · cases h : fsExists path <;> cases h2 : strEndsWith (strLower path) ".pdf" <;>
      simp [h, h2, Except.map]
  · cases h : fsExists path <;> cases h2 : strEndsWith (strLower path) ".pdf" <;>
      simp [h, h2, Except.map]
  · intro fs' hfs
    rw [hfs]

/-- Witness for C9 at concrete inputs: on an existing path ending in `.PDF`
(case-insensitive), construction succeeds; the existence bit alone decides
`FileNotFoundError`. -/
theorem c9_validate_characterization_witness :
    initPDFExtractor (fun _ => true) "report.PDF" = .ok "report.PDF"
    ∧ initPDFExtractor (fun _ => false) "report.PDF" = .error .fileNotFound := by
  constructor
  · exact (c9_validate_characterization (fun _ => true) "report.PDF").2.2.1.mpr
      ⟨rfl, by decide⟩
  · exact (c9_validate_characterization (fun _ => false) "report.PDF").1.mpr rfl

/-- C4 counterexample: on first-page text `"$50.00\nTotal: 100.00"` the
extracted total is 50.00 — the single `re.search` with two alternatives returns
the leftmost match in the text, so the bare `$`-number at position 0 wins over
the later `Total`-labelled 100.00, contradicting the claim that a
`Total`-labelled number is authoritative whenever one exists. -/
theorem c4_counterexample :
    (extractInvoiceData ["$50.00\nTotal: 100.00"] []).total_amount = some 50
    ∧ some (50 : ℚ) ≠ some (100 : ℚ) := by
  exact ⟨by decide, by decide⟩

/-- C4 amended: amount extraction returns the leftmost occurrence of either
alternative — a bare currency-prefixed number earlier in the text wins over a
later `Total` label; a `Total`-labelled number wins when it comes first; and
when neither alternative matches anywhere the amount is left unset. -/
theorem c4_amount_leftmost :
    (extractInvoiceData ["$50.00\nTotal: 100.00"] []).total_amount = some 50
    ∧ (extractInvoiceData ["Total: 100.00 includes $50.00"] []).total_amount = some 100
    ∧ (extractInvoiceData ["no amounts here"] []).total_amount = none := by
  exact ⟨by decide, by decide, by decide⟩

/-- Modelled from the spec: "first non-empty line of page-one text, trimmed"
(the counterparty heuristic the spec describes), for comparison with the code's
`lines[0].strip()`. -/
def specFirstNonEmptyLine (text : String) : Option String :=
  ((splitLines text.data).find? (fun l => !l.isEmpty)).map (fun l => strTrim (String.mk l))

/-- C6 counterexample: on first-page text `"\nAcme Corp"` (leading newline, a
blank first line) the code stores `lines[0].strip() = ""` as the vendor, while
the first non-empty line described by the spec is `"Acme Corp"`. -/
theorem c6_counterexample :
    (extractInvoiceData ["\nAcme Corp"] []).vendor = some ""
    ∧ specFirstNonEmptyLine "\nAcme Corp" = some "Acme Corp" := by
  exact ⟨by decide, by decide⟩

theorem splitLines_ne_nil (cs : List Char) : splitLines cs ≠ [] := by
  cases cs with
  | nil => simp [splitLines, splitOnChar]
  | cons c t =>
    unfold splitLines splitOnChar
    split
    · simp
    · split <;> simp

/-- C6 amended: for every invoice document whose first page yields text, the
extracted vendor equals the trimmed *first* line (line index 0) of the page-one
text — possibly the empty string when that line is blank; whenever the first
line trims to something non-empty, this agrees with the spec's "first non-empty
line, trimmed". -/
theorem c6_vendor_first_line (t : String) (ts : List String) (tbls : List TableT) :
    (extractInvoiceData (t :: ts) tbls).vendor = some (firstLineTrim t)
    ∧ (firstLineTrim t ≠ "" → specFirstNonEmptyLine t = some (firstLineTrim t)) := by
  constructor
  · rfl
  · intro hne
    unfold specFirstNonEmptyLine firstLineTrim
    cases hs : splitLines t.data with
    | nil => exact absurd hs (splitLines_ne_nil _)
    | cons l0 ls =>
      have hl0 : l0.isEmpty = false := by
        cases hl : l0 with
        | nil =>
          exfalso
          apply hne
          unfold firstLineTrim
          rw [hs, hl]
          rfl
        | cons a u => simp [hl]
      simp [List.find?, hl0, List.headD]

/-- Witness for C6's amended theorem at a concrete input with a non-blank first
line: the vendor is the trimmed first line and agrees with the spec heuristic. -/
theorem c6_vendor_first_line_witness :
    (extractInvoiceData ["Acme Inc\nTotal: 10"] []).vendor = some "Acme Inc"
    ∧ specFirstNonEmptyLine "Acme Inc\nTotal: 10" = some "Acme Inc" := by
  have h := c6_vendor_first_line "Acme Inc\nTotal: 10" [] []
  exact ⟨h.1.trans (by decide), (h.2 (by decide)).trans (by decide)⟩

/-- C7 counterexample: on page text `"zzzz"` no field pattern matches (the
invoice-number, date and amount searches all fail), yet the returned record does
not have all optional fields null: the vendor field is unconditionally set to
the trimmed first line `"zzzz"`. -/
theorem c7_counterexample :
    searchInvoiceNumber "zzzz".data = none
    ∧ searchDateTok "zzzz".data = none
    ∧ searchAmount "zzzz".data = none
    ∧ (extractInvoiceData ["zzzz"] []).vendor = some "zzzz" := by
  exact ⟨by decide, by decide, by decide, by decide⟩

/-- C7 amended: extraction is total (never raises for missing or unparsable
fields — raising is reserved for load-time validation, `validateFile`).  When no
pattern matches, every pattern-based field is null and the line-item/metric
collections are empty; but the invoice `vendor` / report `title` is only null
when the document yields no text pages at all — with pages present it is set to
the trimmed first line (possibly the empty string).  A report's candidate
tables are retained verbatim either way. -/
theorem c7_no_match_extraction :
    (∀ (t : String) (ts : List String) (tbls : List TableT),
      searchInvoiceNumber t.data = none → searchDateTok t.data = none →
      searchAmount t.data = none → tbls.all (fun tb => !hasPriceColumn tb) = true →
      (extractInvoiceData (t :: ts) tbls).invoice_number = none
      ∧ (extractInvoiceData (t :: ts) tbls).date = none
      ∧ (extractInvoiceData (t :: ts) tbls).total_amount = none
      ∧ (extractInvoiceData (t :: ts) tbls).line_items = []
      ∧ (extractInvoiceData (t :: ts) tbls).vendor = some (firstLineTrim t))
    ∧ (∀ (t : String) (ts : List String) (tbls : List TableT),
      searchDateTok t.data = none → findMetrics t.data = [] →
      searchSummary t.data = none →
      (extractReportData (t :: ts) tbls).date = none
      ∧ (extractReportData (t :: ts) tbls).summary = none
      ∧ (extractReportData (t :: ts) tbls).key_metrics = []
      ∧ (extractReportData (t :: ts) tbls).tables = tbls
      ∧ (extractReportData (t :: ts) tbls).title = some (firstLineTrim t))
    ∧ (∀ tbls : List TableT,
      extractInvoiceData [] tbls = ⟨none, none, none, none, []⟩
      ∧ extractReportData [] tbls = ⟨none, none, none, [], tbls⟩) := by
  refine ⟨?_, ?_, ?_⟩
  · intro t ts tbls h1 h2 h3 h4
    have hfilter : tbls.filter hasPriceColumn = [] := by
      rw [List.filter_eq_nil_iff]
      intro tb htb
      have := List.all_eq_true.mp h4 tb htb
      simpa using this
    refine ⟨?_, ?_, ?_, ?_, rfl⟩
    · simp [extractInvoiceData, h1]
    · simp [extractInvoiceData, h2]
    · simp [extractInvoiceData, h3]
    · simp [extractInvoiceData, hfilter]
  · intro t ts tbls hd hm hs
    refine ⟨?_, ?_, ?_, rfl, rfl⟩
    · simp [extractReportData, hd]
    · simp [extractReportData, hs]
    · simp [extractReportData, keyMetricsOf, hm]
  · intro tbls
    exact ⟨rfl, rfl⟩

/-- Witness for C7's amended theorem at the patternless text `"qqqq"` (and at a
document with no pages): all pattern-based fields come back null, collections
empty, and the vendor/title is the first line. -/
theorem c7_no_match_extraction_witness :
    ((extractInvoiceData ["qqqq"] []).invoice_number = none
      ∧ (extractInvoiceData ["qqqq"] []).vendor = some "qqqq")
    ∧ ((extractReportData ["qqqq"] []).key_metrics = []
      ∧ (extractReportData ["qqqq"] []).title = some "qqqq")
    ∧ extractInvoiceData [] [] = ⟨none, none, none, none, []⟩ := by
  have h1 := c7_no_match_extraction.1 "qqqq" [] [] (by decide) (by decide) (by decide) (by decide)
  have h2 := c7_no_match_extraction.2.1 "qqqq" [] [] (by decide) (by decide) (by decide)
  have h3 := (c7_no_match_extraction.2.2 []).1
  exact ⟨⟨h1.1, h1.2.2.2.2.trans (by decide)⟩, ⟨h2.2.2.1, h2.2.2.2.2.trans (by decide)⟩, h3⟩

/-- C2 counterexample: on a fresh processor (no tabulation yet), the JSON export
succeeds — it has no precondition check — contradicting "raises for every export
form"; and after a tabulation that produced zero rows (empty `data_list`, the
only way to tabulate zero rows), `save_to_csv` *does* raise, contradicting
"export-after-tabulate-with-zero-rows does not raise". -/
theorem c2_counterexample :
    exportAsJson (initProcessor []) = .ok []
    ∧ saveToCsv (processInvoiceDataS (initProcessor [])).2 = .error .valueError := by
  exact ⟨rfl, rfl⟩

/-- C2 amended: `save_to_csv` and `save_to_excel` raise the precondition
`ValueError` exactly when `processed_data` is empty — which holds both before
any tabulation and after a zero-row tabulation (a zero-row tabulation happens
exactly on an empty `data_list`, and it leaves `processed_data` untouched) —
while `export_as_json` never checks and never raises, in every state. -/
theorem c2_export_preconditions :
    (∀ s : DataProcessorState,
      (saveToCsv s = .error .valueError ↔ frameEmpty s.processed_data = true)
      ∧ (saveToExcel s = .error .valueError ↔ frameEmpty s.processed_data = true)
      ∧ exportAsJson s = .ok s.data_list)
    ∧ (∀ dl : List InvoiceData,
      (saveToCsv (processInvoiceDataS (initProcessor dl)).2 = .error .valueError ↔ dl = [])) := by
  constructor
  · intro s
    refine ⟨?_, ?_, rfl⟩ <;>
      · simp only [saveToCsv, saveToExcel]
        by_cases h : frameEmpty s.processed_data <;> simp [h]
  · intro dl
    cases dl with
    | nil => simp [processInvoiceDataS, initProcessor, saveToCsv, frameEmpty, emptyFrame]
    | cons r t =>
      simp [processInvoiceDataS, initProcessor, saveToCsv, frameEmpty, buildInvoiceFrame]

/-- C3 counterexample: with two records, one carrying identifier `INV-001` and
one lacking it, the identifier column is not entirely null, so the code *does*
run `set_index` — the rows do not stay positionally indexed, contradicting the
claim that any missing identifier keeps positional indexing. -/
theorem c3_counterexample :
    (processInvoiceFrame
      [⟨some "INV-001", none, none, none, []⟩, ⟨none, none, none, none, []⟩]).indexed
      = true := by
  decide

/-- C3 amended: `process_invoice_data` makes the identifier column the row key
iff the dataset is non-empty and at least one record carries an identifier
(`not isna().all()`), regardless of whether the column is fully populated;
records without an identifier then contribute null index entries. -/
theorem c3_index_characterization (dl : List InvoiceData) :
    (processInvoiceFrame dl).indexed
      = (!dl.isEmpty && dl.any (fun r => r.invoice_number.isSome)) := by
  cases dl with
  | nil => rfl
  | cons r t =>
    show (buildInvoiceFrame (r :: t)).indexed = _
    simp only [buildInvoiceFrame, List.isEmpty_cons, Bool.not_false, Bool.true_and]
    induction (r :: t) with
    | nil => rfl
    | cons a u ih =>
      cases ha : a.invoice_number <;>
        simp [List.all_cons, List.any_cons, ha, ih]

theorem foldl_toDatetime_parsed (fs : List DateFmt) (ds : List (Option DateT)) :
    fs.foldl (fun c f => toDatetime f c) (.parsed ds) = .parsed ds := by
  induction fs with
  | nil => rfl
  | cons f fs ih => simpa [toDatetime] using ih

theorem foldl_toDatetime_raw (fs : List DateFmt) (vs : List (Option String)) :
    fs.foldl (fun c f => toDatetime f c) (.raw vs) =
      (match fs.find? (fun f => parsesAll f vs) with
       | some f => .parsed (vs.map (fun v => v.bind (parseDate f)))
       | none => .raw vs) := by
  induction fs with
  | nil => rfl
  | cons f fs ih =>
    simp only [List.foldl_cons]
    by_cases hf : parsesAll f vs
    · have hstep : toDatetime f (.raw vs) = .parsed (vs.map (fun v => v.bind (parseDate f))) := by
        simp [toDatetime, hf]
      have hfind : List.find? (fun g => parsesAll g vs) (f :: fs) = some f := by
        simp [List.find?_cons, hf]
      rw [hstep, foldl_toDatetime_parsed, hfind]
    · have hstep : toDatetime f (.raw vs) = .raw vs := by
        simp [toDatetime, hf]
      have hfind : List.find? (fun g => parsesAll g vs) (f :: fs) =
          List.find? (fun g => parsesAll g vs) fs := by
        simp [List.find?_cons, hf]
      rw [hstep, ih, hfind]

/-- C5: for a tabulated date column with at least one non-null value, the first
candidate format in the ordered list `M/D/Y, D/M/Y, M-D-Y, D-M-Y, M.D.Y, D.M.Y`
that parses every non-null value converts the whole column (nulls become null
dates), a column-wide decision; if no single candidate parses all values, the
column is left as the raw strings, and no exception is raised (the function is
total). -/
theorem c5_date_format_resolution (vals : List (Option String))
    (h : vals.all (fun v => v.isNone) = false) :
    processDateColumn vals =
      (match dateFormats.find? (fun f => parsesAll f vals) with
       | some f => .parsed (vals.map (fun v => v.bind (parseDate f)))
       | none => .raw vals) := by
  unfold processDateColumn
  rw [h]
  simpa using foldl_toDatetime_raw dateFormats vals

/-- Witness for C5 at a concrete column: `%m/%d/%Y` (the first candidate) parses
both non-null values, so it wins and fixes the whole column; and at a mixed
column no candidate parses everything, so the raw strings are kept. -/
theorem c5_date_format_resolution_witness :
    processDateColumn [some "01/15/2023", none, some "03/04/2023"]
      = .parsed [some ⟨2023, 1, 15⟩, none, some ⟨2023, 3, 4⟩]
    ∧ processDateColumn [some "01/15/2023", some "2023-03-04"]
      = .raw [some "01/15/2023", some "2023-03-04"] := by
  constructor
  · exact (c5_date_format_resolution _ (by decide)).trans (by decide)
  · exact (c5_date_format_resolution _ (by decide)).trans (by decide)

theorem foldlDedupM_nodup (l : List (ℕ × ℕ)) :
    ∀ acc : List (ℕ × ℕ), acc.Nodup →
      (l.foldl (fun acc a => if a ∈ acc then acc else acc ++ [a]) acc).Nodup := by
  induction l with
  | nil => intro acc h; exact h
  | cons a t ih =>
    intro acc h
    simp only [List.foldl_cons]
    by_cases ha : a ∈ acc
    · rw [if_pos ha]; exact ih acc h
    · rw [if_neg ha]
      refine ih _ ?_
      simp [List.nodup_append, h, ha]

theorem firstDedupM_nodup (l : List (ℕ × ℕ)) : (firstDedupM l).Nodup :=
  foldlDedupM_nodup l [] (by simp)

theorem foldlDedupM_mem (l : List (ℕ × ℕ)) :
    ∀ (acc : List (ℕ × ℕ)) (x : ℕ × ℕ),
      x ∈ l.foldl (fun acc a => if a ∈ acc then acc else acc ++ [a]) acc →
      x ∈ acc ∨ x ∈ l := by
  induction l with
  | nil => intro acc x h; exact Or.inl h
  | cons a t ih =>
    intro acc x h
    simp only [List.foldl_cons] at h
    by_cases ha : a ∈ acc
    · rw [if_pos ha] at h
      rcases ih acc x h with h' | h'
      · exact Or.inl h'
      · exact Or.inr (List.mem_cons_of_mem _ h')
    · rw [if_neg ha] at h
      rcases ih _ x h with h' | h'
      · rcases List.mem_append.mp h' with h'' | h''
        · exact Or.inl h''
        · simp only [List.mem_singleton] at h''
          exact Or.inr (by simp [h''])
      · exact Or.inr (List.mem_cons_of_mem _ h')

theorem firstDedupM_mem {l : List (ℕ × ℕ)} {x : ℕ × ℕ}
    (h : x ∈ firstDedupM l) : x ∈ l := by
  rcases foldlDedupM_mem l [] x h with h' | h'
  · simp at h'
  · exact h'

theorem firstDedupM_length_le_one {l : List (ℕ × ℕ)} {ym : ℕ × ℕ}
    (h : ∀ x ∈ l, x = ym) : (firstDedupM l).length ≤ 1 := by
  have hnd := firstDedupM_nodup l
  cases hd : firstDedupM l with
  | nil => simp
  | cons a u =>
    cases hu : u with
    | nil => simp
    | cons b v =>
      exfalso
      rw [hd, hu] at hnd
      have ha : a = ym := h a (firstDedupM_mem (l := l) (by rw [hd]; simp))
      have hb : b = ym := h b (firstDedupM_mem (l := l) (by rw [hd, hu]; simp))
      have hne : a ≠ b := by
        intro he
        exact (List.nodup_cons.mp hnd).1 (by rw [he]; simp)
      exact hne (ha.trans hb.symm)

theorem monthKeyed_keys_eq {f : InvoiceFrame} {ym : ℕ × ℕ}
    (h : monthsAllEq f ym = true) :
    ∀ x ∈ (monthKeyed f).map (fun p => p.1), x = ym := by
  intro x hx
  unfold monthKeyed at hx
  unfold monthsAllEq at h
  cases hd : f.dateCol with
  | raw vs => rw [hd] at hx; simp at hx
  | parsed ds =>
    rw [hd] at hx h
    rw [List.mem_map] at hx
    obtain ⟨p, hp, hpx⟩ := hx
    rw [List.mem_filterMap] at hp
    obtain ⟨q, hq, hqp⟩ := hp
    cases hq1 : q.1 with
    | none => rw [hq1] at hqp; simp at hqp
    | some d =>
      rw [hq1] at hqp
      simp only [Option.map_some', Option.some.injEq] at hqp
      have hqd : some d ∈ ds := by
        have := (List.of_mem_zip hq).1
        rwa [hq1] at this
      have hda := List.all_eq_true.mp h _ hqd
      simp only [decide_eq_true_eq] at hda
      rw [← hpx, ← hqp]
      exact hda

theorem monthlyTotals_len_le_one {f : InvoiceFrame} {ym : ℕ × ℕ}
    (h : monthsAllEq f ym = true) : (monthlyTotals f).length ≤ 1 := by
  unfold monthlyTotals
  rw [List.length_map]
  unfold sortedMonths
  rw [List.length_insertionSort]
  exact firstDedupM_length_le_one (monthKeyed_keys_eq h)

theorem sortedMonths_nodup (f : InvoiceFrame) : (sortedMonths f).Nodup := by
  unfold sortedMonths
  exact (List.perm_insertionSort monthLE _).nodup_iff.mpr
    (firstDedupM_nodup _)

/-- C8: for every invoice dataset whose parsed dates all fall within a single
calendar month (also vacuously when the date column stayed raw), the
`monthly_change` entry is entirely absent from the insights — never `NaN`,
never a default zero; and whenever a `monthly_change` map is present at all,
the chronologically first month is never one of its keys (its `NaN`
`pct_change` is dropped). -/
theorem c8_monthly_change :
    (∀ (f : InvoiceFrame) (ym : ℕ × ℕ), monthsAllEq f ym = true →
      lookupInsight "monthly_change" (analyzeInvoices f) = none)
    ∧ (∀ (f : InvoiceFrame) (pm : List ((ℕ × ℕ) × PctVal)),
      lookupInsight "monthly_change" (analyzeInvoices f) = some (.pctMap pm) →
      ∀ e ∈ pm, (sortedMonths f).head? ≠ some e.1) := by
  constructor
  · intro f ym hall
    unfold analyzeInvoices
    by_cases he : frameEmpty f
    · rw [if_pos he]; rfl
    · rw [if_neg he]
      unfold lookupInsight
      rw [List.find?_append, List.find?_append]
      have hb : (basicBlock f).find? (fun p => p.1 = "monthly_change") = none := rfl
      have hv : (vendorBlock f).find? (fun p => p.1 = "monthly_change") = none := rfl
      have ht : (timeBlock f).find? (fun p => p.1 = "monthly_change") = none := by
        unfold timeBlock
        cases hd : f.dateCol with
        | raw vs => rfl
        | parsed ds =>
          have hlen : ¬ (1 < (monthlyTotals f).length) := by
            have := monthlyTotals_len_le_one hall
            omega
          rw [if_neg hlen]
          rfl
      rw [hb, hv, ht]
      rfl
  · intro f pm h e he hhead
    unfold analyzeInvoices at h
    by_cases hf : frameEmpty f
    · rw [if_pos hf] at h
      exact absurd h (by simp [lookupInsight, List.find?])
    · rw [if_neg hf] at h
      unfold lookupInsight at h
      rw [List.find?_append, List.find?_append] at h
      have hb : (basicBlock f).find? (fun p => p.1 = "monthly_change") = none := rfl
      have hv : (vendorBlock f).find? (fun p => p.1 = "monthly_change") = none := rfl
      rw [hb, hv] at h
      simp only [Option.or_none, Option.none_or] at h
      have hpm : pm = pctEntries (monthlyTotals f) := by
        unfold timeBlock at h
        cases hd : f.dateCol with
        | raw vs =>
          rw [hd] at h
          simp at h
        | parsed ds =>
          rw [hd] at h
          by_cases hlen : 1 < (monthlyTotals f).length
          · rw [if_pos hlen] at h
            simp only [List.find?_append] at h
            have hmt : ([(("monthly_totals" : String),
                Insight.monthMap (monthlyTotals f))]).find?
                (fun p => p.1 = "monthly_change") = none := rfl
            rw [hmt] at h
            simp only [Option.none_or] at h
            have hmc : ([(("monthly_change" : String),
                Insight.pctMap (pctEntries (monthlyTotals f)))]).find?
                (fun p => p.1 = "monthly_change")
                = some ("monthly_change", Insight.pctMap (pctEntries (monthlyTotals f))) := rfl
            rw [hmc] at h
            simp only [Option.map_some', Option.some.injEq] at h
            exact (Insight.pctMap.injEq .. ▸ h.symm : _)
          · rw [if_neg hlen] at h
            simp at h
      subst hpm
      unfold pctEntries at he
      rw [List.mem_filterMap] at he
      obtain ⟨p, hp, hpe⟩ := he
      have hp2 : p.2 ∈ (monthlyTotals f).tail := (List.of_mem_zip hp).2
      have he1 : e.1 = p.2.1 := by
        cases hc : pctChange p.1.2 p.2.2 with
        | none => rw [hc] at hpe; simp at hpe
        | some v =>
          rw [hc] at hpe
          simp only [Option.map_some', Option.some.injEq] at hpe
          rw [← hpe]
      have hmem : p.2.1 ∈ (sortedMonths f).tail := by
        have : (monthlyTotals f).tail
            = ((sortedMonths f).tail).map
              (fun mo => (mo, sumOpt (((monthKeyed f).filter
                (fun q => q.1 = mo)).map (fun q => q.2)))) := by
          unfold monthlyTotals
          rw [List.map_tail]
        rw [this] at hp2
        rw [List.mem_map] at hp2
        obtain ⟨mo, hmo, hmoe⟩ := hp2
        rw [← hmoe] at *
        exact hmo
      have hnd := sortedMonths_nodup f
      cases hs : sortedMonths f with
      | nil => rw [hs] at hhead; simp at hhead
      | cons m0 rest =>
        rw [hs] at hhead
        simp only [List.head?_cons, Option.some.injEq] at hhead
        rw [hs] at hnd hmem
        simp only [List.tail_cons] at hmem
        rw [he1] at hhead
        exact (List.nodup_cons.mp hnd).1 (hhead ▸ hmem)

/-- A concrete processed frame whose two parsed dates fall in May 2023. -/
def frameOneMonth : InvoiceFrame :=
  ⟨[none, none], .parsed [some ⟨2023, 5, 1⟩, some ⟨2023, 5, 20⟩],
   [some "V", some "W"], [some 100, some 50], [0, 0], false⟩

/-- A concrete processed frame with parsed dates in May and June 2023. -/
def frameTwoMonths : InvoiceFrame :=
  ⟨[none, none], .parsed [some ⟨2023, 5, 1⟩, some ⟨2023, 6, 1⟩],
   [some "V", some "W"], [some 100, some 150], [0, 0], false⟩

/-- Witness for C8 at concrete frames: a single-month dataset has no
`monthly_change` entry at all, and in a two-month dataset the first month
(May 2023) is not a `monthly_change` key (June is, with +50%). -/
theorem c8_monthly_change_witness :
    lookupInsight "monthly_change" (analyzeInvoices frameOneMonth) = none
    ∧ (sortedMonths frameTwoMonths).head? ≠ some (2023, 6) := by
  constructor
  · exact c8_monthly_change.1 frameOneMonth (2023, 5) (by decide)
  · refine c8_monthly_change.2 frameTwoMonths (pctEntries (monthlyTotals frameTwoMonths))
      rfl ((2023, 6), PctVal.val 50) ?_
    have hs : sortedMonths frameTwoMonths = [(2023, 5), (2023, 6)] := by decide
    have hm : monthKeyed frameTwoMonths
        = [((2023, 5), some 100), ((2023, 6), some 150)] := by decide
    unfold monthlyTotals pctEntries
    rw [hs, hm]
    simp only [List.map_cons, List.map_nil, List.filter_cons, List.filter_nil]
    norm_num [sumOpt, pctChange, List.filterMap_cons, List.filterMap_nil,
      List.sum_cons, List.sum_nil, id_eq]

theorem digitC_not_labelChar {c : Char} (h : isDigitC c = true) : isLabelChar c = false := by
  simp only [isDigitC, decide_eq_true_eq] at h
  simp only [isLabelChar, isAsciiAlpha, isPySpace, Bool.or_eq_false_iff,
    decide_eq_false_iff_not]
  constructor
  · omega
  · intro hmem
    simp only [List.mem_cons, List.not_mem_nil, or_false] at hmem
    rcases hmem with rfl | rfl | rfl | rfl | rfl | rfl <;> exact absurd h (by decide)

theorem digitC_not_pySpace {c : Char} (h : isDigitC c = true) : isPySpace c = false := by
  have := digitC_not_labelChar h
  simp only [isLabelChar, Bool.or_eq_false_iff] at this
  exact this.2

theorem digitC_ne {c : Char} (h : isDigitC c = true) :
    c ≠ ',' ∧ c ≠ '.' ∧ c ≠ '$' ∧ c ≠ ':' := by
  refine ⟨?_, ?_, ?_, ?_⟩ <;> (intro he; rw [he] at h; exact absurd h (by decide))

theorem takeWhile_eq_self_of_all {p : Char → Bool} {l : List Char}
    (h : ∀ c ∈ l, p c = true) : l.takeWhile p = l := by
  induction l with
  | nil => rfl
  | cons a t ih =>
    rw [List.takeWhile_cons_of_pos (h a (by simp))]
    rw [ih (fun c hc => h c (by simp [hc]))]

theorem dropWhile_eq_nil_of_all {p : Char → Bool} {l : List Char}
    (h : ∀ c ∈ l, p c = true) : l.dropWhile p = [] := by
  induction l with
  | nil => rfl
  | cons a t ih =>
    rw [List.dropWhile_cons_of_pos (h a (by simp))]
    exact ih (fun c hc => h c (by simp [hc]))

theorem commaGroups_not_comma {c : Char} {r : List Char} (h : c ≠ ',') :
    commaGroups (c :: r) = [] := by
  unfold commaGroups
  split
  · rename_i heq
    injection heq with h1 _
    exact absurd h1 h
  · rfl

theorem fracPart_not_dot {c : Char} {r : List Char} (h : c ≠ '.') :
    fracPart (c :: r) = [] := by
  unfold fracPart
  split
  · rename_i heq
    injection heq with h1 _
    exact absurd h1 h
  · rfl

theorem stripDollar_not_dollar {c : Char} {r : List Char} (h : c ≠ '$') :
    stripDollar (c :: r) = c :: r := by
  unfold stripDollar
  split
  · rename_i heq
    injection heq with h1 _
    exact absurd h1 h
  · rfl

/-- `numToken` on an input of four or more digits: exactly the first three
digits are consumed (the `\d{1,3}` run is capped at three, a following digit
satisfies neither the `,\d{3}` group nor the `\.\d{2}` fraction). -/
theorem numToken_digits {d1 d2 d3 d4 : Char} {rest : List Char}
    (h : ∀ c ∈ d1 :: d2 :: d3 :: d4 :: rest, isDigitC c = true) :
    numToken (d1 :: d2 :: d3 :: d4 :: rest) = some ([d1, d2, d3], d4 :: rest) := by
  have htw : (d1 :: d2 :: d3 :: d4 :: rest).takeWhile isDigitC
      = d1 :: d2 :: d3 :: d4 :: rest := takeWhile_eq_self_of_all h
  unfold numToken
  rw [htw]
  simp only [List.take_succ_cons, List.take_zero, List.isEmpty_cons, List.length_cons,
    List.length_nil, List.drop_succ_cons, List.drop_zero]
  rw [if_neg (by simp)]
  have hd4 : isDigitC d4 = true := h d4 (by simp)
  rw [commaGroups_not_comma (digitC_ne hd4).1]
  simp only [List.length_nil, List.drop_zero]
  rw [fracPart_not_dot (digitC_ne hd4).2.1]
  simp

/-- `metricAt` anchored at `label ++ ": " ++ digits` (four or more digits):
the label run stops at the colon, the single space is skipped, and the number
group takes exactly the first three digits. -/
theorem metricAt_label_digits {lab : List Char} {d1 d2 d3 d4 : Char} {rest : List Char}
    (hlab : lab ≠ []) (hl : ∀ c ∈ lab, isLabelChar c = true)
    (hd : ∀ c ∈ d1 :: d2 :: d3 :: d4 :: rest, isDigitC c = true) :
    metricAt (lab ++ ':' :: ' ' :: d1 :: d2 :: d3 :: d4 :: rest)
      = some (lab, [d1, d2, d3], d4 :: rest) := by
  have hcolon : isLabelChar ':' = false := by decide
  have htw : (lab ++ ':' :: ' ' :: d1 :: d2 :: d3 :: d4 :: rest).takeWhile isLabelChar
      = lab := by
    rw [List.takeWhile_append_of_pos hl, List.takeWhile_cons_of_neg (by simp [hcolon])]
    simp
  have hdw : (lab ++ ':' :: ' ' :: d1 :: d2 :: d3 :: d4 :: rest).dropWhile isLabelChar
      = ':' :: ' ' :: d1 :: d2 :: d3 :: d4 :: rest := by
    rw [List.dropWhile_append_of_pos hl, List.dropWhile_cons_of_neg (by simp [hcolon])]
  have hd1 : isDigitC d1 = true := hd d1 (by simp)
  unfold metricAt
  rw [htw, hdw]
  rw [if_neg (by simp [hlab])]
  have hsp : (' ' :: d1 :: d2 :: d3 :: d4 :: rest).dropWhile isPySpace
      = d1 :: d2 :: d3 :: d4 :: rest := by
    rw [List.dropWhile_cons_of_pos (by decide),
      List.dropWhile_cons_of_neg (by simp [digitC_not_pySpace hd1])]
  show (numToken (stripDollar ((' ' :: d1 :: d2 :: d3 :: d4 :: rest).dropWhile
      isPySpace))).map (fun p => (lab, p.1, p.2)) = _
  rw [hsp, stripDollar_not_dollar (digitC_ne hd1).2.2.1, numToken_digits hd]
  rfl

/-- After the match, the leftover digits admit no further metric match: a digit
is not a label character, so the scanner just discards them one by one. -/
theorem findMetrics_all_digits {l : List Char} (h : ∀ c ∈ l, isDigitC c = true) :
    findMetrics l = [] := by
  induction l with
  | nil => rfl
  | cons c t ih =>
    have hnone : metricAt (c :: t) = none := by
      unfold metricAt
      rw [List.takeWhile_cons_of_neg (by simp [digitC_not_labelChar (h c (by simp))])]
      rfl
    rw [findMetrics_cons_of_metricAt_none hnone]
    exact ih (fun c hc => h c (by simp [hc]))

theorem parseMoney_digits {l : List Char} (h : ∀ c ∈ l, isDigitC c = true) :
    parseMoney l = (digitsToNat l : ℚ) := by
  have hfilter : l.filter (fun c => c ≠ ',') = l := by
    rw [List.filter_eq_self]
    intro c hc
    simp [(digitC_ne (h c hc)).1]
  have htw : l.takeWhile (fun c => c ≠ ',') = l := by
    exact takeWhile_eq_self_of_all (fun c hc => by simp [(digitC_ne (h c hc)).1])
  unfold parseMoney
  show mkRat (100 * digitsToNat ((l.filter (fun c => c ≠ ',')).takeWhile (fun c => c ≠ '.'))
      + digitsToNat (((l.filter (fun c => c ≠ ',')).dropWhile (fun c => c ≠ '.')).drop 1))
      100 = (digitsToNat l : ℚ)
  rw [hfilter]
  rw [takeWhile_eq_self_of_all (fun c hc => by simp [(digitC_ne (h c hc)).2.1])]
  rw [dropWhile_eq_nil_of_all (fun c hc => by simp [(digitC_ne (h c hc)).2.1])]
  show mkRat (100 * digitsToNat l + digitsToNat []) 100 = _
  show mkRat (100 * digitsToNat l + 0) 100 = _
  rw [add_zero, Rat.mkRat_eq_div]
  push_cast
  exact mul_div_cancel_left₀ _ (by norm_num)

/-- C10: in report key-metric extraction the numeric pattern is not anchored to
the end of the number: for every label (of letters/whitespace) followed by
`": "` and four or more bare digits, the single stored metric is the label
(stripped) with the float of only the first three digits; the remaining digits
are silently dropped (they produce no further match), neither parsed nor
rejected. -/
theorem c10_metric_truncation (lab ds : List Char)
    (hlab : lab ≠ []) (hl : ∀ c ∈ lab, isLabelChar c = true)
    (hlen : 4 ≤ ds.length) (hd : ∀ c ∈ ds, isDigitC c = true) :
    keyMetricsOf (String.mk (lab ++ ':' :: ' ' :: ds))
      = [(strTrim (String.mk lab), (digitsToNat (ds.take 3) : ℚ))] := by
  obtain ⟨d1, ds1, rfl⟩ : ∃ d1 ds1, ds = d1 :: ds1 := by
    cases ds with
    | nil => simp at hlen
    | cons a t => exact ⟨a, t, rfl⟩
  obtain ⟨d2, ds2, rfl⟩ : ∃ d2 ds2, ds1 = d2 :: ds2 := by
    cases ds1 with
    | nil => simp at hlen
    | cons a t => exact ⟨a, t, rfl⟩
  obtain ⟨d3, ds3, rfl⟩ : ∃ d3 ds3, ds2 = d3 :: ds3 := by
    cases ds2 with
    | nil => simp at hlen
    | cons a t => exact ⟨a, t, rfl⟩
  obtain ⟨d4, rest, rfl⟩ : ∃ d4 rest, ds3 = d4 :: rest := by
    cases ds3 with
    | nil => simp at hlen
    | cons a t => exact ⟨a, t, rfl⟩
  unfold keyMetricsOf
  have hstring : (String.mk (lab ++ ':' :: ' ' :: d1 :: d2 :: d3 :: d4 :: rest)).data
      = lab ++ ':' :: ' ' :: d1 :: d2 :: d3 :: d4 :: rest := rfl
  rw [hstring]
  rw [findMetrics_eq_of_metricAt_some (metricAt_label_digits hlab hl hd)]
  rw [findMetrics_all_digits (fun c hc => hd c (by simp at hc ⊢; tauto))]
  simp only [List.foldl_cons, List.foldl_nil, dictInsert, List.any_nil,
    Bool.false_eq_true, if_false, List.nil_append]
  rw [parseMoney_digits (fun c hc => hd c (by simp at hc ⊢; tauto))]
  rfl

/-- Witness for C10 at `\"Revenue: 1234\"`: the stored metric is
`(\"Revenue\", 123.0)` — the fourth digit is dropped. -/
theorem c10_metric_truncation_witness :
    keyMetricsOf "Revenue: 1234" = [("Revenue", (123 : ℚ))] := by
  have h := c10_metric_truncation ['R', 'e', 'v', 'e', 'n', 'u', 'e'] ['1', '2', '3', '4']
    (by decide) (by decide) (by decide) (by decide)
  exact h.trans (by decide)

theorem sMean_concrete : sMean [10, 10, 10, 10, 1000] = 208 := by
  norm_num [sMean, List.sum_cons, List.sum_nil]

theorem sVar_concrete : sVar [10, 10, 10, 10, 1000] = 196020 := by
  simp only [sVar, sMean_concrete, List.map_cons, List.map_nil, List.sum_cons,
    List.sum_nil, List.length_cons, List.length_nil]
  norm_num

theorem sStd_concrete : sStd [10, 10, 10, 10, 1000] = Real.sqrt 196020 := by
  unfold sStd
  rw [sVar_concrete]
  norm_num

theorem sqrt196020_pos : (0 : ℝ) < Real.sqrt 196020 := Real.sqrt_pos.mpr (by norm_num)

theorem sqrt196020_ge : (396 : ℝ) ≤ Real.sqrt 196020 := by
  have h : (396 : ℝ) = Real.sqrt (396 ^ 2) := (Real.sqrt_sq (by norm_num)).symm
  rw [h]
  exact Real.sqrt_le_sqrt (by norm_num)

theorem zscore_le_two {x : ℚ} (hx : |x - 208| ≤ (792 : ℚ)) :
    ¬ (|((x - 208 : ℚ) : ℝ) / Real.sqrt 196020| > 2) := by
  rw [not_lt, abs_div, abs_of_nonneg (Real.sqrt_nonneg _), div_le_iff₀ sqrt196020_pos]
  have h1 : |((x - 208 : ℚ) : ℝ)| ≤ 792 := by
    rw [← Rat.cast_abs]
    exact_mod_cast hx
  linarith [sqrt196020_ge]

/-- On the column `[10, 10, 10, 10, 1000]` with threshold 2.0 the code flags
nothing: the mean is 208 and the (sample, `ddof=1`) variance 196020, so every
`|z| = |x − 208|/√196020 ≤ 792/√196020 < 2`. -/
theorem anomalies_concrete_empty :
    getAnomalies 2 [("total_amount", [10, 10, 10, 10, 1000])] = [] := by
  unfold getAnomalies
  simp only [List.map_cons, List.map_nil, List.flatten_cons, List.flatten_nil,
    List.append_nil]
  unfold columnAnomalies
  rw [if_neg (by rw [sStd_concrete]; exact ne_of_gt sqrt196020_pos)]
  have hzip : (List.range ([10, 10, 10, 10, 1000] : List ℚ).length).zip
      ([10, 10, 10, 10, 1000] : List ℚ)
      = [(0, (10 : ℚ)), (1, 10), (2, 10), (3, 10), (4, 1000)] := rfl
  rw [hzip]
  refine List.filterMap_eq_nil_iff.mpr ?_
  intro a ha
  simp only [List.mem_cons, List.not_mem_nil, or_false] at ha
  rcases ha with rfl | rfl | rfl | rfl | rfl <;>
    · simp only [sMean_concrete, sStd_concrete]
      exact if_neg (zscore_le_two (by norm_num))

/-- C1 counterexample: `get_anomalies` with threshold 2.0 flags *nothing* on
`[10, 10, 10, 10, 1000]` — not "exactly the value 1000" — because the code's
standard deviation is the sample one (`ddof=1`, ≈442.74), giving `|z| ≈ 1.79`
for 1000 (and even under the population std the z-score is exactly 2.0, which a
strict `>` comparison does not flag). -/
theorem c1_counterexample :
    getAnomalies 2 [("total_amount", [10, 10, 10, 10, 1000])] = [] :=
  anomalies_concrete_empty

theorem sVar_replicate (n : ℕ) (c : ℚ) : sVar (List.replicate n c) = 0 := by
  cases n with
  | zero => simp [sVar, sMean]
  | succ m =>
    have hmean : sMean (List.replicate (m + 1) c) = c := by
      unfold sMean
      rw [List.sum_replicate, List.length_replicate, nsmul_eq_mul]
      exact mul_div_cancel_left₀ c (by exact_mod_cast Nat.succ_ne_zero m)
    unfold sVar
    rw [hmean]
    rw [List.map_replicate]
    simp

theorem columnAnomalies_replicate (t : ℝ) (name : String) (n : ℕ) (c : ℚ) :
    columnAnomalies t name (List.replicate n c) = [] := by
  unfold columnAnomalies
  rw [if_pos]
  unfold sStd
  rw [sVar_replicate]
  simp

/-- C1 amended: on `[10, 10, 10, 10, 1000]` with threshold 2.0, `get_anomalies`
flags no value at all: the standard deviation it uses is the *sample* standard
deviation (`ddof=1`; squared: 196020 = 784080/4), under which the z-score of
1000 is `792/√196020 ≈ 1.79 < 2` — strictly below the threshold (even the
population std would give exactly 2.0, not exceeding it).  Zero-variance
(constant) columns are skipped and produce no anomaly entries. -/
theorem c1_sample_std_no_flags :
    getAnomalies 2 [("total_amount", [10, 10, 10, 10, 1000])] = []
    ∧ sVar [10, 10, 10, 10, 1000] = 196020
    ∧ |(((1000 : ℚ) - 208 : ℚ) : ℝ) / Real.sqrt 196020| < 2
    ∧ (∀ (t : ℝ) (name : String) (n : ℕ) (c : ℚ),
        columnAnomalies t name (List.replicate n c) = []) := by
  refine ⟨anomalies_concrete_empty, sVar_concrete, ?_, columnAnomalies_replicate⟩
  rw [abs_div, abs_of_nonneg (Real.sqrt_nonneg _), div_lt_iff₀ sqrt196020_pos]
  have h1 : |(((1000 : ℚ) - 208 : ℚ) : ℝ)| = 792 := by
    rw [← Rat.cast_abs]
    norm_num
  have h2 : (396 : ℝ) < Real.sqrt 196020 := by
    rw [show (396 : ℝ) = Real.sqrt (396 ^ 2) from (Real.sqrt_sq (by norm_num)).symm]
    exact Real.sqrt_lt_sqrt (by norm_num) (by norm_num)
  linarith

end PdfTool
